import Mathlib

/-!
Verification of the dwdatareader channel/sample access layer.

This file gives a shallow embedding, in Lean 4, of the access-layer logic of
`dwdatareader/__init__.py`: status translation (`check_lib_status`), the reader
session lifecycle (`DWFile.__init__` / `open` / `close`), channel lookup
(`DWFile.__getitem__`), the header filter (`DWFile.header`), array-axis column
naming (`DWArrayInfo.name` / `columns`), bulk and chunked sample access
(`DWChannel.scaled` / `series_generator`), and the timestamp de-duplication
done with `numpy.unique`.

The native DWDataReader library is an external black box; where its behaviour
matters it is modelled from the specification's description of the capability
(statuses, handle validity, the last-error-message buffer protocol) and the
model point is documented at the definition.  Sample values and timestamps are
doubles in the source; they are modelled as integers since every claim below
is about how values are moved, selected and ordered, never about float
arithmetic.
-/

/-- Status codes returned from library function calls (`class DWStatus(IntEnum)`
in the source, same constructor order). -/
inductive DWStatus where
  | DWSTAT_OK
  | DWSTAT_ERROR
  | DWSTAT_ERROR_FILE_CANNOT_OPEN
  | DWSTAT_ERROR_FILE_ALREADY_IN_USE
  | DWSTAT_ERROR_FILE_CORRUPT
  | DWSTAT_ERROR_NO_MEMORY_ALLOC
  | DWSTAT_ERROR_CREATE_DEST_FILE
  | DWSTAT_ERROR_EXTRACTING_FILE
  | DWSTAT_ERROR_CANNOT_OPEN_EXTRACTED_FILE
  | DWSTAT_ERROR_INVALID_IB_LEVEL
  | DWSTAT_ERROR_CAN_NOT_SUPPORTED
  | DWSTAT_ERROR_INVALID_READER
  | DWSTAT_ERROR_INVALID_INDEX
  | DWSTAT_ERROR_INSUFFICENT_BUFFER
deriving DecidableEq, Repr

/-! ## Timestamp de-duplication (`numpy.unique(time, return_index=True)`)

`DWChannel.dataframe` and `DWChannel.series_generator` de-duplicate timestamps
with `numpy.unique(..., return_index=True)`.  Modelled from the numpy library
semantics: the call returns the distinct values of the input in ascending
sorted order, together with, for each distinct value, the index of its first
occurrence in the original array. -/

/-- The value array returned by `numpy.unique`: distinct input values in
ascending order. -/
def npUniqueVals (xs : List Int) : List Int :=
  List.insertionSort (· ≤ ·) xs.dedup

/-- The index array returned by `numpy.unique(..., return_index=True)`: for
each returned value, the index of its first occurrence in the input. -/
def npUniqueIdx (xs : List Int) : List Nat :=
  (npUniqueVals xs).map (fun v => xs.indexOf v)

/-! ## Channel sample data and `DWChannel.scaled` / `series_generator`

A channel's full-rate contents as held by the native store: `count` samples,
each a vector of `arraySize` values, and one timestamp per sample.
`DWIGetScaledSamples(handle, index, pos, len, data, time)` fills `time` with
`time pos .. time (pos+len-1)` and `data` with the corresponding sample rows,
flattened row-major (`len * arraySize` doubles). -/
structure ChannelData where
  count : Nat
  arraySize : Nat
  time : Nat → Int
  data : Nat → Nat → Int

/-- The `time` (resp. per-column `data`) buffer filled by one
`DWIGetScaledSamples(pos, size)` call, read off through `f`. -/
def chunkBuf (f : Nat → Int) (pos size : Nat) : List Int :=
  (List.range size).map (fun k => f (pos + k))

/-- Timestamps returned by `DWChannel.scaled`: one bulk fetch of all
`number_of_samples` samples starting at position 0. -/
def scaledTimes (ch : ChannelData) : List Int :=
  (List.range ch.count).map ch.time

/-- Value array returned by `DWChannel.scaled`: `count * arraySize` doubles,
sample rows flattened row-major. -/
def scaledData (ch : ChannelData) : List Int :=
  ((List.range ch.count).map (fun i => (List.range ch.arraySize).map (ch.data i))).flatten

/-- `DWChannel.scaled(array_index)`: raises `IndexError` unless
`0 <= array_index < array_size`, then returns the full `(time, data)` arrays
(the data of every column, regardless of `array_index`). -/
def DWChannel.scaled (ch : ChannelData) (arrayIndex : Nat) :
    Except String (List Int × List Int) :=
  if arrayIndex < ch.arraySize then .ok (scaledTimes ch, scaledData ch)
  else .error "array index is out of range"

/-- The loop of `DWChannel.series_generator`: `for chunk in range(0, count, c)`
fetches `min(c, count - chunk)` samples at position `chunk` into the `data`
buffer and into whatever array the variable `time` currently names.  `time`
starts as `np.zeros(c)` but is REBOUND each iteration by
`time, ix = np.unique(time[:chunk_size], return_index=True)`, so from the
second iteration on its capacity is the previous chunk's number of distinct
timestamps (`tlen` below).  The next fetch writes `chunk_size` values through
`time.ctypes` regardless; only the in-array prefix is observable, and the
slice `time[:chunk_size]` then exposes the first `min(chunk_size, tlen)`
timestamps of the chunk — when a non-final chunk held a duplicate, later
chunks are silently truncated (the out-of-bounds remainder of such a write is
heap corruption in the real program; the model keeps the observable prefix).
Each list element is that visible `(times, values-of-column-j)` window,
pre-de-duplication; the `data` buffer is never rebound, so the value window is
read from a correctly fetched chunk.  The Python loop is the finite iteration
of `range(0, count, c)`; its length is at most `count` when `c >= 1`, so a
fuel argument of `count` makes the recursion structural (Python's `range`
rejects a zero step, so only `c >= 1` is meaningful). -/
def seriesGenAux (ch : ChannelData) (j c : Nat) : Nat → Nat → Nat → List (List Int × List Int)
  | 0, _, _ => []
  | fuel + 1, pos, tlen =>
    if pos < ch.count then
      (chunkBuf ch.time pos (min (min c (ch.count - pos)) tlen),
       chunkBuf (fun i => ch.data i j) pos (min (min c (ch.count - pos)) tlen))
        :: seriesGenAux ch j c fuel (pos + c)
            (npUniqueVals (chunkBuf ch.time pos (min (min c (ch.count - pos)) tlen))).length
    else []

/-- `DWChannel.series_generator(chunk_size, array_index)`: the chunk size is
first clamped to `min(chunk_size, count)`, the `time` buffer is allocated with
that capacity, and the loop above runs from position 0.  Each element is the
raw (pre-de-duplication) `(times, values)` window visible to one iteration. -/
def seriesGenerator (ch : ChannelData) (chunkSize j : Nat) : List (List Int × List Int) :=
  seriesGenAux ch j (min chunkSize ch.count) ch.count 0 (min chunkSize ch.count)

/-- The per-chunk de-duplication applied to a visible window before yielding:
unique sorted times, and the values at the first-occurrence indices
(`data.reshape(-1, n)[ix, j]`; the indices produced by `np.unique` are within
the window, hence within the fetched chunk). -/
def dedupChunk (tv : List Int × List Int) : List Int × List Int :=
  (npUniqueVals tv.1, (npUniqueIdx tv.1).map (fun i => tv.2.getD i 0))

/-- The `j`-th column of the channel's sample matrix, i.e. the values of
`scaledData` at flat positions `i * arraySize + j`. -/
def channelColumn (ch : ChannelData) (j : Nat) : List Int :=
  (List.range ch.count).map (fun i => ch.data i j)

/-! ## The native store and the reader session (`DWFile`)

Modelled from the spec: the native capability is a black box reached through
an opaque reader handle.  The model tracks which handles are live (created and
not destroyed) and which have an open data file, and reports
`DWSTAT_ERROR_INVALID_READER` for any call through a handle that is not a live
reader (spec 4.1 / 7: "no sample-access or property call succeeds on a closed
session (fails with InvalidReader)"; error taxonomy "invalid reader handle").
Statuses that depend on file contents (corrupt file, etc.) are scripted
parameters, since the store decides them opaquely. -/
structure LibState where
  nextHandle : Nat
  live : List Nat
  filesOpen : List Nat
  destroys : Nat
deriving DecidableEq, Repr

/-- `DWICreateReader`: allocates a fresh reader handle. -/
def dwiCreateReader (lib : LibState) : LibState × Nat :=
  ({ lib with nextHandle := lib.nextHandle + 1, live := lib.nextHandle :: lib.live },
   lib.nextHandle)

/-- A Python-side handle value (`None` after `close()` sets
`self.reader_handle = None`) is valid iff it names a live reader. -/
def handleValid (lib : LibState) (h : Option Nat) : Bool :=
  match h with
  | none => false
  | some n => lib.live.contains n

/-- `DWIOpenDataFile`: on a valid handle the store answers with the scripted
status (OK, corrupt, cannot-open, ...), opening the file on success. -/
def dwiOpenDataFile (lib : LibState) (h : Option Nat) (scripted : DWStatus) :
    LibState × DWStatus :=
  match h with
  | some n =>
    if lib.live.contains n then
      if scripted = .DWSTAT_OK then
        ({ lib with filesOpen := n :: lib.filesOpen }, scripted)
      else (lib, scripted)
    else (lib, .DWSTAT_ERROR_INVALID_READER)
  | none => (lib, .DWSTAT_ERROR_INVALID_READER)

/-- `DWICloseDataFile`: closes the handle's open file. -/
def dwiCloseDataFile (lib : LibState) (h : Option Nat) : LibState × DWStatus :=
  match h with
  | some n =>
    if lib.live.contains n then
      ({ lib with filesOpen := lib.filesOpen.erase n }, .DWSTAT_OK)
    else (lib, .DWSTAT_ERROR_INVALID_READER)
  | none => (lib, .DWSTAT_ERROR_INVALID_READER)

/-- `DWIDestroyReader`: releases the reader resource; `destroys` counts the
successful releases. -/
def dwiDestroyReader (lib : LibState) (h : Option Nat) : LibState × DWStatus :=
  match h with
  | some n =>
    if lib.live.contains n then
      ({ lib with live := lib.live.erase n, destroys := lib.destroys + 1 }, .DWSTAT_OK)
    else (lib, .DWSTAT_ERROR_INVALID_READER)
  | none => (lib, .DWSTAT_ERROR_INVALID_READER)

/-- Any per-reader query (`DWIGetMeasurementInfo`, `DWIGetChannelListCount`,
`DWIGetChannelList`, `DWIGetHeaderEntryCount`, ...): a live handle with an
open file answers with the scripted status, any other handle with
`DWSTAT_ERROR_INVALID_READER`. -/
def dwiReaderQuery (lib : LibState) (h : Option Nat) (scripted : DWStatus) : DWStatus :=
  match h with
  | some n =>
    if lib.live.contains n && lib.filesOpen.contains n then scripted
    else .DWSTAT_ERROR_INVALID_READER
  | none => .DWSTAT_ERROR_INVALID_READER

/-- Any per-channel query (`DWIGetScaledSamplesCount`, `DWIGetChannelProps`,
`DWIGetScaledSamples`, `DWIGetReducedValuesCount`, ...), same validity rule. -/
def dwiChannelQuery (lib : LibState) (h : Option Nat) (scripted : DWStatus) : DWStatus :=
  match h with
  | some n =>
    if lib.live.contains n && lib.filesOpen.contains n then scripted
    else .DWSTAT_ERROR_INVALID_READER
  | none => .DWSTAT_ERROR_INVALID_READER

/-- The catalog entry of one channel (`DWChannelStruct`): stable integer
`index` (a C int) and identifying `name`. -/
structure ChanMeta where
  index : Int
  name : String
deriving DecidableEq, Repr

/-- A `DWChannel` object as built at open time: the catalog entry plus the
reader handle captured by `DWChannel.__init__`. -/
structure PyChannel where
  meta : ChanMeta
  readerHandle : Option Nat
deriving DecidableEq, Repr

/-- The Python-side state of a `DWFile`: the `closed` flag, the (optional)
reader handle, and the channel list (`None` before open, emptied by close). -/
structure FileState where
  closed : Bool
  readerHandle : Option Nat
  channels : Option (List PyChannel)
deriving DecidableEq, Repr

/-- `DWFile.__init__` (before any `open`): `closed = True`, no channels, a
fresh reader created with `DWICreateReader`. -/
def DWFile.new (lib : LibState) : LibState × FileState :=
  let r := dwiCreateReader lib
  (r.1, { closed := true, readerHandle := some r.2, channels := none })

/-- `DWFile.close`: a no-op when `self.closed`; otherwise closes the data
file (status unchecked in the source), destroys the reader when the handle is
not `None`, sets `reader_handle = None`, `closed = True` and empties the
channel list. -/
def DWFile.close (lib : LibState) (fs : FileState) : LibState × FileState :=
  if fs.closed then (lib, fs)
  else
    let lib1 := (dwiCloseDataFile lib fs.readerHandle).1
    match fs.readerHandle with
    | some n =>
      let lib2 := (dwiDestroyReader lib1 (some n)).1
      (lib2, { fs with closed := true, readerHandle := none, channels := some [] })
    | none => (lib1, { fs with closed := true, channels := some [] })

/-- The statuses the store answers during one `DWFile.open` attempt, plus the
channel catalog it would deliver: `DWIOpenDataFile`, `DWIGetMeasurementInfo`,
`DWIGetChannelListCount`, `DWIGetChannelList`. -/
structure OpenScript where
  stOpen : DWStatus
  stMinfo : DWStatus
  stChCount : DWStatus
  stChList : DWStatus
  chans : List ChanMeta
deriving DecidableEq, Repr

/-- `DWFile.open(source)`: the `try` body checks every status with
`check_lib_status`; the first non-OK status raises `RuntimeError`, which the
`except` clause handles by calling `self.close()` and re-raising (the raised
status is the third component).  `self.closed = False` is assigned only after
`DWIGetMeasurementInfo` succeeds, exactly as in the source. -/
def DWFile.openSource (lib : LibState) (fs : FileState) (sc : OpenScript) :
    LibState × FileState × Option DWStatus :=
  let r1 := dwiOpenDataFile lib fs.readerHandle sc.stOpen
  let lib1 := r1.1
  if r1.2 ≠ .DWSTAT_OK then
    let r := DWFile.close lib1 fs
    (r.1, r.2, some r1.2)
  else
    let st2 := dwiReaderQuery lib1 fs.readerHandle sc.stMinfo
    if st2 ≠ .DWSTAT_OK then
      let r := DWFile.close lib1 fs
      (r.1, r.2, some st2)
    else
      let fs1 : FileState := { fs with closed := false }
      let st3 := dwiReaderQuery lib1 fs1.readerHandle sc.stChCount
      if st3 ≠ .DWSTAT_OK then
        let r := DWFile.close lib1 fs1
        (r.1, r.2, some st3)
      else
        let st4 := dwiReaderQuery lib1 fs1.readerHandle sc.stChList
        if st4 ≠ .DWSTAT_OK then
          let r := DWFile.close lib1 fs1
          (r.1, r.2, some st4)
        else
          (lib1,
           { fs1 with channels := some (sc.chans.map (fun m => ⟨m, fs1.readerHandle⟩)) },
           none)

/-! ## Channel calls through `check_lib_status`

Each wrapper method calls the store and passes the returned status to
`check_lib_status`, which raises `RuntimeError` on any non-OK status; the
model returns `Except DWStatus` with the raised status (the attached message
text is modelled separately with the full `check_lib_status` below).  The
payload delivered on success is opaque store output and is a parameter. -/

/-- `DWChannel.number_of_samples` (`DWIGetScaledSamplesCount`). -/
def DWChannel.number_of_samples (lib : LibState) (h : Option Nat)
    (scripted : DWStatus) (count : Nat) : Except DWStatus Nat :=
  let s := dwiChannelQuery lib h scripted
  if s = .DWSTAT_OK then .ok count else .error s

/-- `DWChannel._chan_prop_int` (`DWIGetChannelProps`). -/
def DWChannel.chan_prop_int (lib : LibState) (h : Option Nat)
    (scripted : DWStatus) (v : Int) : Except DWStatus Int :=
  let s := dwiChannelQuery lib h scripted
  if s = .DWSTAT_OK then .ok v else .error s

/-- `DWChannel.scaled` as a session call: `number_of_samples` first, then
`DWIGetScaledSamples`. -/
def DWChannel.scaledCall (lib : LibState) (h : Option Nat)
    (st1 st2 : DWStatus) (count : Nat) (payload : List Int × List Int) :
    Except DWStatus (List Int × List Int) :=
  match DWChannel.number_of_samples lib h st1 count with
  | .error e => .error e
  | .ok _ =>
    let s := dwiChannelQuery lib h st2
    if s = .DWSTAT_OK then .ok payload else .error s

/-- `DWChannel.reduced`: `DWIGetReducedValuesCount`, then
`DWIGetReducedValues`. -/
def DWChannel.reducedCall (lib : LibState) (h : Option Nat)
    (st1 st2 : DWStatus) (payload : List Int) : Except DWStatus (List Int) :=
  let s1 := dwiChannelQuery lib h st1
  if s1 = .DWSTAT_OK then
    let s2 := dwiChannelQuery lib h st2
    if s2 = .DWSTAT_OK then .ok payload else .error s2
  else .error s1

/-! ## Channel lookup (`DWFile.__getitem__`) -/

/-- A Python key as dispatched by `type(key) is DWChannel` /
`type(key) is str` / anything else. -/
inductive PyKey where
  | chan (c : ChanMeta)
  | str (s : String)
  | int (n : Int)
deriving DecidableEq, Repr

/-- What `DWFile.__getitem__` does: returns a channel, raises `KeyError`, or
falls off the end of a non-raising branch and returns `None`. -/
inductive LookupResult where
  | found (c : ChanMeta)
  | keyError
  | noneReturned
deriving DecidableEq, Repr

/-- `DWFile.__getitem__(key)`: a `DWChannel` key scans for
`ch.index == key.index or ch.name == key.name`; a `str` key scans for
`ch.index == key or ch.name == key`, where `ch.index == key` compares an int
with a str and is therefore always `False` in Python 3; any other key type
(ints included) goes to the `else: raise KeyError(key)` branch.  When a scan
in the first two branches finds nothing, the function body ends without
`return` or `raise`, so Python returns `None`. -/
def DWFile.getitem (channels : List ChanMeta) (key : PyKey) : LookupResult :=
  match key with
  | .chan k =>
    match channels.find? (fun ch => ch.index == k.index || ch.name == k.name) with
    | some ch => .found ch
    | none => .noneReturned
  | .str s =>
    match channels.find? (fun ch => false || ch.name == s) with
    | some ch => .found ch
    | none => .noneReturned
  | .int _ => .keyError

/-! ## Array-axis naming (`DWArrayInfo.name` / `DWArrayInfo.columns`) -/

/-- A Python value carrying its runtime type, as far as the `==` in
`DWArrayInfo.name` needs it: `self._name` is a `bytes` object (a
`ctypes.c_char` array field), the sentinel `'_'` is a `str`. -/
inductive PyVal where
  | bytes (s : String)
  | str (s : String)
deriving DecidableEq, Repr

/-- Python `==` on such values: `bytes == str` is always `False` in Python 3,
whatever the contents. -/
def pyEq : PyVal → PyVal → Bool
  | .bytes a, .bytes b => a == b
  | .str a, .str b => a == b
  | _, _ => false

/-- Python's `s.startswith(p)`, modelled on the character sequences (the
built-in `String.startsWith` is byte-position based and is not usable in
closed evaluation here; prefix-of on the character lists is the same
function). -/
def pyStartsWith (s p : String) : Bool :=
  p.toList.isPrefixOf s.toList

/-- Python's `s.split(sep)` on a character list: splits at every separator
occurrence; `"".split(sep)` is `[""]`, and leading/trailing separators yield
empty fields, as in Python. -/
def charSplit (sep : Char) : List Char → List (List Char)
  | [] => [[]]
  | c :: rest =>
    if c = sep then [] :: charSplit sep rest
    else
      match charSplit sep rest with
      | [] => [[c]]
      | g :: gs => (c :: g) :: gs

/-- Python's `s.split(sep)` for a one-character separator. -/
def pySplit (s : String) (sep : Char) : List String :=
  (charSplit sep s.toList).map (fun cs => String.mk cs)

/-- Result of evaluating the `DWArrayInfo.name` property. -/
inductive NameResult where
  | ok (s : String)
  | attributeError
deriving DecidableEq, Repr

/-- `DWArrayInfo.name`: `if self._name == '_': return self.colums[self.index]
else: return decode_bytes(self._name)`.  The raw byte content of `_name` is
modelled as its decoded string (`decode_bytes` strips trailing NULs and is the
identity on the content).  The then-branch reads the attribute `colums`, which
does not exist on the class (the property is spelled `columns`), so taking it
raises `AttributeError`. -/
def DWArrayInfo.name (rawName : String) : NameResult :=
  if pyEq (.bytes rawName) (.str "_") then .attributeError
  else .ok rawName

/-- `DWArrayInfo.columns`: parses `StringValues` out of the channel's XML
document (modelled as the optional text of that element), drops the first
semicolon-separated field, and prefixes each label with the channel name;
when the element text is absent it repeats the axis's own name `size` times
(`[self.channel.array_info[self.index].name for _ in range(self.size)]`). -/
def DWArrayInfo.columns (channelName : String) (stringValues : Option String)
    (axisName : String) (size : Nat) : List String :=
  match stringValues with
  | some sv => ((pySplit sv ';').drop 1).map (fun colName => channelName ++ "_" ++ colName)
  | none => List.replicate size axisName

/-! ## Header filtering (`DWFile.header`) -/

/-- One header entry as delivered by `DWIGetHeaderEntryNameF` /
`DWIGetHeaderEntryTextF`. -/
structure HeaderEntry where
  name : String
  text : String
deriving DecidableEq, Repr

/-- The placeholder test in the source:
`text.startswith('Select...') or text.startswith('To fill out')`. -/
def isPlaceholderText (t : String) : Bool :=
  pyStartsWith t "Select..." || pyStartsWith t "To fill out"

/-- Python `dict` assignment `d[k] = v`: overwrites in place when the key
exists, appends otherwise. -/
def dictInsert (m : List (String × String)) (k v : String) : List (String × String) :=
  if m.any (fun p => p.1 == k) then
    m.map (fun p => if p.1 == k then (k, v) else p)
  else m ++ [(k, v)]

/-- One iteration of the loop in `DWFile.header`:
`if len(text) and not(text.startswith('Select...') or text.startswith('To fill out')): header[name] = text`. -/
def headerStep (m : List (String × String)) (e : HeaderEntry) : List (String × String) :=
  if !e.text.toList.isEmpty && !isPlaceholderText e.text then dictInsert m e.name e.text
  else m

/-- The loop of `DWFile.header` over the `count` store entries. -/
def foldHeader (m : List (String × String)) : List HeaderEntry → List (String × String)
  | [] => m
  | e :: es => foldHeader (headerStep m e) es

/-- `DWFile.header`: starts from the empty dict and folds the loop body over
every header entry the store reports. -/
def DWFile.header (entries : List HeaderEntry) : List (String × String) :=
  foldHeader [] entries

/-! ## Measurement info (`DWMeasurementInfo`) -/

/-- A Python `datetime`, as far as these properties build one:
`datetime(1899, 12, 30, tzinfo=utc) + timedelta(x)`, i.e. a day offset from
the fixed epoch (`timedelta`'s first positional argument is in days). -/
structure PyDatetime where
  daysFromDWEpoch : Rat
deriving DecidableEq, Repr

/-- The `DWMeasurementInfo` structure fields (doubles in the source). -/
structure DWMeasurementInfo where
  sample_rate : Rat
  _start_measure_time : Rat
  _start_store_time : Rat
  duration : Rat
deriving DecidableEq, Repr

/-- `DWMeasurementInfo.start_store_time`:
`epoch + timedelta(self._start_store_time)`. -/
def DWMeasurementInfo.start_store_time (m : DWMeasurementInfo) : PyDatetime :=
  ⟨m._start_store_time⟩

/-- `DWMeasurementInfo.start_measure_time`: the source body is
`epoch + timedelta(self._start_store_time)` — it reads `_start_store_time`,
not `_start_measure_time`. -/
def DWMeasurementInfo.start_measure_time (m : DWMeasurementInfo) : PyDatetime :=
  ⟨m._start_store_time⟩

/-! ## `check_lib_status` and the last-error-message protocol -/

/-- The store side of `DWGetLastStatus`.  Modelled from the spec (4.6): the
query fills the caller's buffer with the last detailed message when the buffer
is large enough; when it is undersized it returns
`DWSTAT_ERROR_NO_MEMORY_ALLOC` (the code the source's loop tests for) and
writes the required length into the by-reference length argument; it may
instead fail outright with some other status (`glsFail`), leaving the buffer
untouched. -/
structure ErrStore where
  msg : String
  glsFail : Option DWStatus
deriving DecidableEq, Repr

/-- Outcome of one `DWGetLastStatus(byref(err_status), err_msg,
byref(err_msg_len))` call with a buffer of `bufLen` bytes whose current
content decodes to `buf`. -/
inductive GLSResult where
  | retry (needed : Nat)
  | stop (buf : String)
deriving DecidableEq, Repr

/-- One `DWGetLastStatus` call: `retry` is the return value
`DWSTAT_ERROR_NO_MEMORY_ALLOC` (buffer undersized, required length reported);
`stop` is any other return value, with the buffer content the caller will
decode (the message on success, the untouched old content on `glsFail`). -/
def dwGetLastStatus (st : ErrStore) (bufLen : Nat) (buf : String) : GLSResult :=
  match st.glsFail with
  | some _ => .stop buf
  | none =>
    if bufLen < st.msg.length + 1 then .retry (st.msg.length + 1) else .stop st.msg

/-- The `while DWGetLastStatus(...) == DWStatus.DWSTAT_ERROR_NO_MEMORY_ALLOC:
err_msg = create_string_buffer(err_msg_len.value)` loop: each retry allocates
a fresh zeroed buffer of the reported length.  The loop is given fuel; two
calls always suffice against this store, since the first undersized answer
reports the exact required length. -/
def lastErrMsgLoop (st : ErrStore) : Nat → Nat → String → String
  | 0, _, buf => buf
  | fuel + 1, bufLen, buf =>
    match dwGetLastStatus st bufLen buf with
    | .stop b => b
    | .retry needed => lastErrMsgLoop st fuel needed ""

/-- `check_lib_status(status)`: returns normally iff `status` is
`DWSTAT_OK`; otherwise fetches the detailed message (initial buffer of 1024
bytes, initially zeroed, so its content decodes to `""`) and raises
`RuntimeError(f"Error {status}: {message}")`, carrying the numeric status and
the message. -/
def check_lib_status (st : ErrStore) (fuel : Nat) (status : DWStatus) :
    Except (DWStatus × String) Unit :=
  if status = .DWSTAT_OK then .ok ()
  else .error (status, lastErrMsgLoop st fuel 1024 "")

/-! ## Concrete instances used by the counterexamples and traces -/

/-- The empty native store: no readers yet. -/
def lib0 : LibState := ⟨0, [], [], 0⟩

/-- A single-entry channel catalog. -/
def chansEx : List ChanMeta := [⟨0, "ch0"⟩]

/-- An open script on which every store call succeeds. -/
def scriptOK (chans : List ChanMeta) : OpenScript :=
  ⟨.DWSTAT_OK, .DWSTAT_OK, .DWSTAT_OK, .DWSTAT_OK, chans⟩

/-- An open script on which `DWIOpenDataFile` succeeds but
`DWIGetMeasurementInfo` reports a corrupt file. -/
def scMinfoFail : OpenScript :=
  ⟨.DWSTAT_OK, .DWSTAT_ERROR_FILE_CORRUPT, .DWSTAT_OK, .DWSTAT_OK, []⟩

/-- An open script failing only at `DWIGetChannelListCount`. -/
def scChCountFail : OpenScript :=
  ⟨.DWSTAT_OK, .DWSTAT_OK, .DWSTAT_ERROR, .DWSTAT_OK, []⟩

/-- `DWFile()` then a fully successful `open`: the session state exposed to
the caller. -/
def openedSession : LibState × FileState :=
  let s := DWFile.new lib0
  let r := DWFile.openSource s.1 s.2 (scriptOK chansEx)
  (r.1, r.2.1)

/-- The session above after `close()`. -/
def closedSession : LibState × FileState :=
  DWFile.close openedSession.1 openedSession.2

/-- `DWFile()` then an `open` that fails at the measurement-info step. -/
def minfoFailResult : LibState × FileState × Option DWStatus :=
  let s := DWFile.new lib0
  DWFile.openSource s.1 s.2 scMinfoFail

/-- `DWFile()` then an `open` that fails at the channel-count step. -/
def chCountFailResult : LibState × FileState × Option DWStatus :=
  let s := DWFile.new lib0
  DWFile.openSource s.1 s.2 scChCountFail

/-- `DWFile.close` as a single-state function, for iterating. -/
def closePair (s : LibState × FileState) : LibState × FileState :=
  DWFile.close s.1 s.2

/-- A 1-sample channel with two columns (`array_size = 2`): sample 0 is the
row `[10, 20]` at timestamp 0. -/
def chEx2 : ChannelData :=
  ⟨1, 2, fun _ => 0, fun _ j => if j = 0 then 10 else 20⟩

/-- A scalar 3-sample channel used by witnesses. -/
def chEx1 : ChannelData :=
  ⟨3, 1, fun i => Int.ofNat i, fun i _ => Int.ofNat (7 * i)⟩

/-- A scalar 4-sample channel whose first chunk (at chunk_size 2) holds a
duplicated timestamp: times `[5, 5, 7, 8]`, values `[0, 1, 2, 3]`. -/
def chExDup : ChannelData :=
  ⟨4, 1,
   fun i => if i = 0 then 5 else if i = 1 then 5 else if i = 2 then 7 else 8,
   fun i _ => Int.ofNat i⟩

/-! ## Theorems -/

/-- C10: for every `DWMeasurementInfo` record the exposed `start_measure_time`
equals the exposed `start_store_time`, both being computed from the stored
`_start_store_time` field; the stored `_start_measure_time` field influences
neither exposed value. -/
theorem C10_start_times_equal (m : DWMeasurementInfo) (x : Rat) :
    m.start_measure_time = m.start_store_time ∧
    DWMeasurementInfo.start_measure_time { m with _start_measure_time := x }
      = m.start_measure_time ∧
    DWMeasurementInfo.start_store_time { m with _start_measure_time := x }
      = m.start_store_time :=
  ⟨rfl, rfl, rfl⟩

/-- C5: the sentinel branch of `DWArrayInfo.name` is unreachable — the
comparison `self._name == '_'` compares `bytes` with `str` and is always
`False` — so an axis whose stored name is the placeholder sentinel reports the
literal string `"_"` instead of metadata-derived per-column names; the
derivation itself (`DWArrayInfo.columns`, with its label list and its
repeated-name fallback) behaves as described but is never reached from
`name`, and even if the branch were taken it reads the misspelled attribute
`colums` and would raise `AttributeError`. -/
theorem C5_sentinel_branch_dead :
    (∀ s : String, pyEq (.bytes s) (.str "_") = false) ∧
    (∀ s : String, DWArrayInfo.name s = .ok s) ∧
    DWArrayInfo.name "_" = .ok "_" ∧
    DWArrayInfo.name "_" ≠ .attributeError ∧
    DWArrayInfo.columns "ch" (some ";x;y") "ax" 2 = ["ch_x", "ch_y"] ∧
    DWArrayInfo.columns "ch" none "ax" 2 = ["ax", "ax"] := by
  refine ⟨fun s => rfl, fun s => rfl, rfl, by decide, ?_, rfl⟩
  decide

/-- C3: `DWFile.__getitem__` raises `KeyError` for every integer key — valid
channel indices included — because the type dispatch only handles `DWChannel`
and `str` keys; and when a string (or `DWChannel`) key matches no channel the
scan falls off the end of the function and returns `None` instead of raising.
Lookup by name does return the channel when present. -/
theorem C3_getitem_behaviour :
    (∀ (channels : List ChanMeta) (n : Int),
       DWFile.getitem channels (.int n) = .keyError) ∧
    DWFile.getitem chansEx (.int 0) = .keyError ∧
    DWFile.getitem chansEx (.str "nope") = .noneReturned ∧
    DWFile.getitem chansEx (.str "ch0") = .found ⟨0, "ch0"⟩ ∧
    DWFile.getitem chansEx (.chan ⟨0, "ch0"⟩) = .found ⟨0, "ch0"⟩ := by
  refine ⟨fun channels n => rfl, rfl, by decide, by decide, by decide⟩

/-- The message loop needs at most two calls against the modelled store: the
first undersized answer reports the exact required length. -/
theorem lastErrMsgLoop_result (st : ErrStore) (k : Nat) :
    lastErrMsgLoop st (k + 2) 1024 ""
      = match st.glsFail with | some _ => "" | none => st.msg := by
  match hfail : st.glsFail with
  | some e => simp [lastErrMsgLoop, dwGetLastStatus, hfail]
  | none =>
    by_cases hlen : 1024 < st.msg.length + 1
    · simp [lastErrMsgLoop, dwGetLastStatus, hfail, hlen, Nat.lt_irrefl]
    · simp [lastErrMsgLoop, dwGetLastStatus, hfail, hlen]

/-- C6: `check_lib_status` returns normally exactly when the status is
`DWSTAT_OK`; any other status raises a single `RuntimeError` carrying the
numeric status together with the detailed message fetched from the store; the
`DWGetLastStatus` query is retried with a resized buffer only while the store
answers `DWSTAT_ERROR_NO_MEMORY_ALLOC` (buffer undersized), and stops as soon
as the message is retrieved or a different (non-buffer-size) status comes
back, in which case the raised message is the untouched (empty) buffer.  Two
calls always suffice, and when the initial 1024-byte buffer is already large
enough a single call does. -/
theorem C6_check_lib_status (st : ErrStore) (status : DWStatus) (fuel : Nat)
    (hf : 2 ≤ fuel) :
    (check_lib_status st fuel status = .ok () ↔ status = .DWSTAT_OK) ∧
    (st.glsFail = none → status ≠ .DWSTAT_OK →
       check_lib_status st fuel status = .error (status, st.msg)) ∧
    (∀ e, st.glsFail = some e → status ≠ .DWSTAT_OK →
       check_lib_status st fuel status = .error (status, "")) ∧
    (st.glsFail = none → st.msg.length < 1024 →
       lastErrMsgLoop st 1 1024 "" = st.msg) := by
  obtain ⟨k, rfl⟩ : ∃ k, fuel = k + 2 := ⟨fuel - 2, by omega⟩
  have hloop := lastErrMsgLoop_result st k
  refine ⟨?_, ?_, ?_, ?_⟩
  · constructor
    · intro h
      by_contra hne
      simp [check_lib_status, hne] at h
    · intro h; simp [check_lib_status, h]
  · intro hfail hne
    simp only [check_lib_status, if_neg hne]
    rw [hloop, hfail]
  · intro e hfail hne
    simp only [check_lib_status, if_neg hne]
    rw [hloop, hfail]
  · intro hfail hlen
    have h1 : ¬ 1024 < st.msg.length + 1 := by omega
    simp [lastErrMsgLoop, dwGetLastStatus, hfail, h1]

/-- C6 witness: a concrete non-OK status against a concrete store. -/
theorem C6_check_lib_status_witness :
    2 ≤ 2 ∧
    check_lib_status ⟨"boom", none⟩ 2 .DWSTAT_ERROR = .error (.DWSTAT_ERROR, "boom") :=
  ⟨by decide,
   (C6_check_lib_status ⟨"boom", none⟩ .DWSTAT_ERROR 2 (by decide)).2.1 rfl (by decide)⟩

/-- `List.indexOf` is the first occurrence: it is in range, it points at the
value, and no earlier position holds the value. -/
theorem indexOf_first_occurrence (xs : List Int) (v : Int) (hv : v ∈ xs) :
    xs.indexOf v < xs.length ∧ xs.getD (xs.indexOf v) 0 = v ∧
    ∀ i, i < xs.indexOf v → xs.getD i 0 ≠ v := by
  induction xs with
  | nil => cases hv
  | cons a t ih =>
    by_cases ha : a = v
    · subst ha
      simp [List.indexOf_cons_self]
    · have hvt : v ∈ t := by
        rcases List.mem_cons.mp hv with h | h
        · exact absurd h.symm ha
        · exact h
      obtain ⟨h1, h2, h3⟩ := ih hvt
      rw [List.indexOf_cons_ne t ha]
      refine ⟨by simpa using Nat.succ_lt_succ h1, by simpa using h2, ?_⟩
      intro i hi
      cases i with
      | zero => simpa using ha
      | succ n =>
        have : n < t.indexOf v := by omega
        simpa using h3 n this

/-- C4 (amended): the de-duplication performed with `numpy.unique` keeps, for
each distinct timestamp, its first occurrence, and returns the distinct
timestamps in ascending sorted order — so it is idempotent as a function, and
a sequence that is already duplicate-free *and ascending* is returned
unchanged; its value set is exactly that of the input. -/
theorem C4_dedup_properties (xs : List Int) :
    (List.Sorted (· ≤ ·) xs → xs.Nodup → npUniqueVals xs = xs) ∧
    npUniqueVals (npUniqueVals xs) = npUniqueVals xs ∧
    List.Sorted (· ≤ ·) (npUniqueVals xs) ∧
    (npUniqueVals xs).Nodup ∧
    (∀ v, v ∈ npUniqueVals xs ↔ v ∈ xs) ∧
    (∀ v ∈ npUniqueVals xs,
       xs.indexOf v < xs.length ∧ xs.getD (xs.indexOf v) 0 = v ∧
       ∀ i, i < xs.indexOf v → xs.getD i 0 ≠ v) := by
  have hmem : ∀ v, v ∈ npUniqueVals xs ↔ v ∈ xs := by
    intro v
    unfold npUniqueVals
    rw [(List.perm_insertionSort _ _).mem_iff, List.mem_dedup]
  have hsorted : List.Sorted (· ≤ ·) (npUniqueVals xs) :=
    List.sorted_insertionSort _ _
  have hnodup : (npUniqueVals xs).Nodup :=
    (List.perm_insertionSort _ _).nodup_iff.mpr (List.nodup_dedup xs)
  refine ⟨?_, ?_, hsorted, hnodup, hmem, ?_⟩
  · intro hs hn
    unfold npUniqueVals
    rw [List.dedup_eq_self.mpr hn]
    exact hs.insertionSort_eq
  · show List.insertionSort (· ≤ ·) (npUniqueVals xs).dedup = npUniqueVals xs
    rw [List.dedup_eq_self.mpr hnodup]
    exact hsorted.insertionSort_eq
  · intro v hv
    exact indexOf_first_occurrence xs v ((hmem v).mp hv)

/-- C4 counterexample: `[1, 0]` is already free of duplicates, yet the
de-duplication step returns `[0, 1]` — the original order is not preserved
(`numpy.unique` sorts). -/
theorem C4_counterexample :
    List.Nodup [(1 : Int), 0] ∧
    npUniqueVals [(1 : Int), 0] = [0, 1] ∧
    npUniqueVals [(1 : Int), 0] ≠ [(1 : Int), 0] := by
  refine ⟨by decide, by decide, by decide⟩

/-- C4 witness: a sorted duplicate-free sequence is returned unchanged. -/
theorem C4_dedup_properties_witness :
    List.Sorted (· ≤ ·) [(0 : Int), 2, 5] ∧ List.Nodup [(0 : Int), 2, 5] ∧
    npUniqueVals [(0 : Int), 2, 5] = [0, 2, 5] :=
  ⟨by decide, by decide,
   (C4_dedup_properties [0, 2, 5]).1 (by decide) (by decide)⟩

/-- A channel-level store query through an invalid (destroyed or `None`)
handle answers `DWSTAT_ERROR_INVALID_READER`, whatever the scripted status. -/
theorem dwiChannelQuery_invalid (lib : LibState) (h : Option Nat) (st : DWStatus)
    (hv : handleValid lib h = false) :
    dwiChannelQuery lib h st = .DWSTAT_ERROR_INVALID_READER := by
  cases h with
  | none => rfl
  | some n =>
    simp only [handleValid] at hv
    show (if (lib.live.contains n && lib.filesOpen.contains n) = true then st
          else DWStatus.DWSTAT_ERROR_INVALID_READER) = DWStatus.DWSTAT_ERROR_INVALID_READER
    rw [hv]
    rfl

/-- C2: every sample-access or property call made through a handle that no
longer names a live reader — in particular any call made after `close()`,
which destroys the reader and sets the session handle to `None` — raises
`RuntimeError` carrying `DWSTAT_ERROR_INVALID_READER`: it never succeeds and
never returns an (empty) payload.  Concretely, for the session `open`ed and
then `close`d below, the channel objects captured handle `0`, and after close
that handle is no longer live (and the session's own handle is `None`), so
each of `number_of_samples`, `_chan_prop_int`, `scaled` and `reduced` fails
this way. -/
theorem C2_closed_session_invalid_reader :
    (∀ (lib : LibState) (h : Option Nat) (st1 st2 : DWStatus) (count : Nat) (v : Int)
       (payload : List Int × List Int) (red : List Int),
       handleValid lib h = false →
       DWChannel.number_of_samples lib h st1 count
           = .error .DWSTAT_ERROR_INVALID_READER ∧
       DWChannel.chan_prop_int lib h st1 v = .error .DWSTAT_ERROR_INVALID_READER ∧
       DWChannel.scaledCall lib h st1 st2 count payload
           = .error .DWSTAT_ERROR_INVALID_READER ∧
       DWChannel.reducedCall lib h st1 st2 red
           = .error .DWSTAT_ERROR_INVALID_READER) ∧
    openedSession.2.channels = some [⟨⟨0, "ch0"⟩, some 0⟩] ∧
    closedSession.2.readerHandle = none ∧
    handleValid closedSession.1 (some 0) = false ∧
    handleValid closedSession.1 none = false := by
  refine ⟨?_, by decide, by decide, by decide, by decide⟩
  intro lib h st1 st2 count v payload red hv
  have hq : ∀ st, dwiChannelQuery lib h st = .DWSTAT_ERROR_INVALID_READER :=
    fun st => dwiChannelQuery_invalid lib h st hv
  refine ⟨?_, ?_, ?_, ?_⟩
  · simp [DWChannel.number_of_samples, hq]
  · simp [DWChannel.chan_prop_int, hq]
  · simp [DWChannel.scaledCall, DWChannel.number_of_samples, hq]
  · simp [DWChannel.reducedCall, hq]

/-- C2 witness: the calls made through the closed session's captured handle. -/
theorem C2_closed_session_invalid_reader_witness :
    handleValid closedSession.1 (some 0) = false ∧
    DWChannel.number_of_samples closedSession.1 (some 0) .DWSTAT_OK 5
      = .error .DWSTAT_ERROR_INVALID_READER :=
  ⟨by decide,
   ((C2_closed_session_invalid_reader).1 closedSession.1 (some 0) .DWSTAT_OK .DWSTAT_OK
     5 0 ([], []) [] (by decide)).1⟩

/-- C7: when `DWFile.open` fails at the measurement-info step, the rollback
`self.close()` in the `except` clause is a no-op — `self.closed` is still
`True` at that point — so the error is re-raised but the data file stays open
and the reader is never destroyed (zero releases); had the failure come one
step later (channel-count query), the rollback does close the file and
destroy the reader. -/
theorem C7_open_rollback_gap :
    minfoFailResult.2.2 = some .DWSTAT_ERROR_FILE_CORRUPT ∧
    minfoFailResult.1.filesOpen = [0] ∧
    minfoFailResult.1.live = [0] ∧
    minfoFailResult.1.destroys = 0 ∧
    minfoFailResult.2.1.closed = true ∧
    minfoFailResult.2.1.readerHandle = some 0 ∧
    chCountFailResult.2.2 = some .DWSTAT_ERROR ∧
    chCountFailResult.1.filesOpen = [] ∧
    chCountFailResult.1.live = [] ∧
    chCountFailResult.1.destroys = 1 := by
  decide

/-- C8: `DWFile.close` is idempotent — applying it twice is the same as
applying it once, on any session state, so a second (or later) close performs
no release and raises no error; after a successful open the close releases the
reader exactly once.  But after the failed open of `C7`'s scenario the
release count stays at zero even when `close()` is called again explicitly:
the resource is released zero times, not exactly once. -/
theorem C8_close_idempotent :
    (∀ s : LibState × FileState, closePair (closePair s) = closePair s) ∧
    closedSession.1.destroys = 1 ∧
    closePair closedSession = closedSession ∧
    closePair (minfoFailResult.1, minfoFailResult.2.1)
      = (minfoFailResult.1, minfoFailResult.2.1) ∧
    minfoFailResult.1.destroys = 0 := by
  refine ⟨?_, by decide, by decide, by decide, by decide⟩
  intro s
  show closePair (DWFile.close s.1 s.2) = _
  by_cases hcl : s.2.closed
  · simp [closePair, DWFile.close, hcl]
  · cases hh : s.2.readerHandle with
    | none => simp [closePair, DWFile.close, hcl, hh]
    | some n => simp [closePair, DWFile.close, hcl, hh]

/-- A dict assignment grows the dict by at most one entry. -/
theorem dictInsert_length (m : List (String × String)) (k v : String) :
    (dictInsert m k v).length ≤ m.length + 1 := by
  unfold dictInsert
  by_cases hk : m.any (fun p => p.1 == k) = true
  · rw [if_pos hk]
    simp
  · rw [if_neg hk]
    simp

/-- Every entry of a dict after an assignment is the assigned pair or an old
entry. -/
theorem dictInsert_mem (m : List (String × String)) (k v : String)
    (p : String × String) (hp : p ∈ dictInsert m k v) : p = (k, v) ∨ p ∈ m := by
  unfold dictInsert at hp
  by_cases hk : m.any (fun q => q.1 == k) = true
  · rw [if_pos hk] at hp
    obtain ⟨q, hq, hpq⟩ := List.mem_map.mp hp
    by_cases hqk : (q.1 == k) = true
    · rw [if_pos hqk] at hpq
      exact Or.inl hpq.symm
    · rw [if_neg hqk] at hpq
      exact Or.inr (hpq ▸ hq)
  · rw [if_neg hk] at hp
    rcases List.mem_append.mp hp with h | h
    · exact Or.inr h
    · exact Or.inl (List.mem_singleton.mp h)

/-- After `d[k] = v` the key `k` is present. -/
theorem dictInsert_key_self (m : List (String × String)) (k v : String) :
    (dictInsert m k v).any (fun p => p.1 == k) = true := by
  unfold dictInsert
  by_cases hk : m.any (fun p => p.1 == k) = true
  · rw [if_pos hk]
    obtain ⟨q, hq, hqk⟩ := List.any_eq_true.mp hk
    refine List.any_eq_true.mpr ⟨(k, v), ?_, by simp⟩
    refine List.mem_map.mpr ⟨q, hq, ?_⟩
    rw [if_pos hqk]
  · rw [if_neg hk]
    refine List.any_eq_true.mpr ⟨(k, v), by simp, by simp⟩

/-- A dict assignment never removes a key. -/
theorem dictInsert_key_mono (m : List (String × String)) (k v k' : String)
    (h : m.any (fun p => p.1 == k') = true) :
    (dictInsert m k v).any (fun p => p.1 == k') = true := by
  unfold dictInsert
  by_cases hk : m.any (fun p => p.1 == k) = true
  · rw [if_pos hk]
    obtain ⟨q, hq, hqk'⟩ := List.any_eq_true.mp h
    by_cases hqk : (q.1 == k) = true
    · have hkk' : (k == k') = true := by
        have h1 : q.1 = k := by simpa using hqk
        have h2 : q.1 = k' := by simpa using hqk'
        simp [← h1, h2]
      refine List.any_eq_true.mpr ⟨(k, v), List.mem_map.mpr ⟨q, hq, ?_⟩, hkk'⟩
      rw [if_pos hqk]
    · refine List.any_eq_true.mpr ⟨q, List.mem_map.mpr ⟨q, hq, ?_⟩, hqk'⟩
      rw [if_neg hqk]
  · rw [if_neg hk]
    obtain ⟨q, hq, hqk'⟩ := List.any_eq_true.mp h
    exact List.any_eq_true.mpr ⟨q, List.mem_append_left _ hq, hqk'⟩

/-- The header loop grows the dict by at most one entry per store entry. -/
theorem foldHeader_length (es : List HeaderEntry) :
    ∀ m : List (String × String), (foldHeader m es).length ≤ m.length + es.length := by
  induction es with
  | nil => intro m; simp [foldHeader]
  | cons e t ih =>
    intro m
    show (foldHeader (headerStep m e) t).length ≤ _
    refine le_trans (ih (headerStep m e)) ?_
    have : (headerStep m e).length ≤ m.length + 1 := by
      unfold headerStep
      by_cases hc : (!e.text.toList.isEmpty && !isPlaceholderText e.text) = true
      · rw [if_pos hc]
        exact dictInsert_length m e.name e.text
      · rw [if_neg hc]
        omega
    simp only [List.length_cons]
    omega

/-- Every value the header loop ever stores is nonempty non-placeholder
text. -/
theorem foldHeader_values (es : List HeaderEntry) :
    ∀ m : List (String × String),
      (∀ p ∈ m, isPlaceholderText p.2 = false ∧ p.2.toList.isEmpty = false) →
      ∀ p ∈ foldHeader m es,
        isPlaceholderText p.2 = false ∧ p.2.toList.isEmpty = false := by
  induction es with
  | nil => intro m hm; exact hm
  | cons e t ih =>
    intro m hm
    refine ih (headerStep m e) ?_
    intro p hp
    unfold headerStep at hp
    by_cases hc : (!e.text.toList.isEmpty && !isPlaceholderText e.text) = true
    · rw [if_pos hc] at hp
      rcases dictInsert_mem m e.name e.text p hp with h | h
      · subst h
        simp only [Bool.and_eq_true, Bool.not_eq_true'] at hc
        exact ⟨hc.2, hc.1⟩
      · exact hm p h
    · rw [if_neg hc] at hp
      exact hm p hp

/-- A key present in the dict stays present through the rest of the header
loop. -/
theorem foldHeader_key_mono (es : List HeaderEntry) :
    ∀ (m : List (String × String)) (k : String),
      m.any (fun p => p.1 == k) = true →
      (foldHeader m es).any (fun p => p.1 == k) = true := by
  induction es with
  | nil => intro m k h; exact h
  | cons e t ih =>
    intro m k h
    refine ih (headerStep m e) k ?_
    unfold headerStep
    by_cases hc : (!e.text.toList.isEmpty && !isPlaceholderText e.text) = true
    · rw [if_pos hc]
      exact dictInsert_key_mono m e.name e.text k h
    · rw [if_neg hc]
      exact h

/-- Every store entry with nonempty non-placeholder text ends up in the
dict under its name. -/
theorem foldHeader_key_present (es : List HeaderEntry) :
    ∀ (m : List (String × String)), ∀ e ∈ es,
      e.text.toList.isEmpty = false → isPlaceholderText e.text = false →
      (foldHeader m es).any (fun p => p.1 == e.name) = true := by
  induction es with
  | nil => intro m e he; cases he
  | cons a t ih =>
    intro m e he hne hnp
    rcases List.mem_cons.mp he with rfl | he'
    · show (foldHeader (headerStep m e) t).any (fun p => p.1 == e.name) = true
      refine foldHeader_key_mono t (headerStep m e) e.name ?_
      have hc : (!e.text.toList.isEmpty && !isPlaceholderText e.text) = true := by
        rw [hne, hnp]
        rfl
      unfold headerStep
      rw [if_pos hc]
      exact dictInsert_key_self m e.name e.text
    · exact ih (headerStep m a) e he' hne hnp

/-- C9 (amended): for every store with `N` header entries, `DWFile.header`
returns a mapping of size at most `N` that contains no entry whose text is
empty or starts with `"Select..."` or `"To fill out"`; every store entry
whose text is nonempty and non-placeholder appears in the mapping under its
entry name.  (Entries with empty text are also filtered — the loop condition
is `len(text) and not(...)` — which is the one departure from the claim as
stated.) -/
theorem C9_header_filter (entries : List HeaderEntry) :
    (DWFile.header entries).length ≤ entries.length ∧
    (∀ p ∈ DWFile.header entries,
       isPlaceholderText p.2 = false ∧ p.2.toList.isEmpty = false) ∧
    (∀ e ∈ entries, e.text.toList.isEmpty = false → isPlaceholderText e.text = false →
       (DWFile.header entries).any (fun p => p.1 == e.name) = true) := by
  refine ⟨?_, ?_, ?_⟩
  · have := foldHeader_length entries []
    simpa [DWFile.header] using this
  · exact foldHeader_values entries [] (by intro p hp; cases hp)
  · intro e he hne hnp
    exact foldHeader_key_present entries [] e he hne hnp

/-- C9 counterexample: a store entry with empty text does not start with
either placeholder prefix, yet it is dropped from the mapping — so, as
stated, "every non-placeholder entry appears" fails. -/
theorem C9_counterexample :
    isPlaceholderText "" = false ∧
    DWFile.header [⟨"a", ""⟩] = [] ∧
    (DWFile.header [⟨"a", ""⟩]).any (fun p => p.1 == "a") = false := by
  refine ⟨by decide, by decide, by decide⟩

/-- C9 witness: a nonempty non-placeholder entry is kept, a placeholder one
filtered. -/
theorem C9_header_filter_witness :
    (DWFile.header [⟨"a", "x"⟩, ⟨"b", "Select... pick"⟩]).any (fun p => p.1 == "a")
      = true ∧
    DWFile.header [⟨"a", "x"⟩, ⟨"b", "Select... pick"⟩] = [("a", "x")] :=
  ⟨(C9_header_filter [⟨"a", "x"⟩, ⟨"b", "Select... pick"⟩]).2.2 ⟨"a", "x"⟩
     (by decide) (by decide) (by decide),
   by decide⟩

/-- A fetched buffer is the image of the consecutive index range it covers. -/
theorem chunkBuf_eq_range_map (f : Nat → Int) (pos size : Nat) :
    chunkBuf f pos size = (List.range' pos size).map f := by
  unfold chunkBuf
  rw [List.range'_eq_map_range, List.map_map]
  rfl

/-- `npUniqueVals` of a duplicate-free list has the input's length. -/
theorem npUniqueVals_length_of_nodup (xs : List Int) (h : xs.Nodup) :
    (npUniqueVals xs).length = xs.length := by
  unfold npUniqueVals
  rw [List.dedup_eq_self.mpr h]
  exact (List.perm_insertionSort _ _).length_eq

/-- `npUniqueVals` of a nonempty list is nonempty. -/
theorem npUniqueVals_length_pos (xs : List Int) (h : xs ≠ []) :
    0 < (npUniqueVals xs).length := by
  unfold npUniqueVals
  rw [(List.perm_insertionSort _ _).length_eq]
  have hd : xs.dedup ≠ [] := fun hc => h ((List.dedup_eq_nil xs).mp hc)
  exact List.length_pos.mpr hd

/-- With pairwise-distinct timestamps, every fetched time window is
duplicate-free. -/
theorem chunkBuf_time_nodup (ch : ChannelData)
    (hinj : ∀ i1 i2, i1 < ch.count → i2 < ch.count → ch.time i1 = ch.time i2 → i1 = i2)
    (pos size : Nat) (hps : pos + size ≤ ch.count) :
    (chunkBuf ch.time pos size).Nodup := by
  rw [chunkBuf_eq_range_map]
  refine List.Nodup.map_on ?_ (List.nodup_range' pos size)
  intro x hx y hy hxy
  have hx' := List.mem_range'_1.mp hx
  have hy' := List.mem_range'_1.mp hy
  exact hinj x y (by omega) (by omega) hxy

/-- On a channel with pairwise-distinct timestamps no chunk shrinks the time
buffer (`np.unique` returns a full-length array each iteration), so the chunks
produced by the generator loop, read through any per-chunk projection `g` that
extracts the fetched buffer of `f`, concatenate to the consecutive samples
`[pos, count)` of `f`: the chunks are consecutive and cover the remaining
range, with nothing skipped or repeated.  `tlen` is the current time-buffer
capacity, at least the next fetch size. -/
theorem seriesGenAux_flatten (ch : ChannelData) (j c : Nat) (hc : 0 < c)
    (hinj : ∀ i1 i2, i1 < ch.count → i2 < ch.count → ch.time i1 = ch.time i2 → i1 = i2)
    (f : Nat → Int) (g : List Int × List Int → List Int)
    (hg : ∀ pos size,
       g (chunkBuf ch.time pos size, chunkBuf (fun i => ch.data i j) pos size)
         = chunkBuf f pos size) :
    ∀ fuel pos tlen, ch.count - pos ≤ fuel → min c (ch.count - pos) ≤ tlen →
      ((seriesGenAux ch j c fuel pos tlen).map g).flatten
        = (List.range' pos (ch.count - pos)).map f := by
  intro fuel
  induction fuel with
  | zero =>
    intro pos tlen h hbuf
    have h0 : ch.count - pos = 0 := Nat.le_zero.mp h
    simp [seriesGenAux, h0]
  | succ n ih =>
    intro pos tlen h hbuf
    by_cases hp : pos < ch.count
    · have hw : min (min c (ch.count - pos)) tlen = min c (ch.count - pos) :=
        Nat.min_eq_left hbuf
      have hstep : seriesGenAux ch j c (n + 1) pos tlen
          = (chunkBuf ch.time pos (min c (ch.count - pos)),
             chunkBuf (fun i => ch.data i j) pos (min c (ch.count - pos)))
              :: seriesGenAux ch j c n (pos + c)
                  (npUniqueVals (chunkBuf ch.time pos (min c (ch.count - pos)))).length := by
        simp only [seriesGenAux, if_pos hp, hw]
      have hps : pos + min c (ch.count - pos) ≤ ch.count := by
        have h1 : min c (ch.count - pos) ≤ ch.count - pos := Nat.min_le_right _ _
        omega
      have hnodup : (chunkBuf ch.time pos (min c (ch.count - pos))).Nodup :=
        chunkBuf_time_nodup ch hinj pos _ hps
      have hlen : (npUniqueVals (chunkBuf ch.time pos (min c (ch.count - pos)))).length
          = min c (ch.count - pos) := by
        rw [npUniqueVals_length_of_nodup _ hnodup]
        simp [chunkBuf]
      have hnext : min c (ch.count - (pos + c))
          ≤ (npUniqueVals (chunkBuf ch.time pos (min c (ch.count - pos)))).length := by
        rw [hlen]
        by_cases hcc : pos + c < ch.count
        · have he : min c (ch.count - pos) = c := Nat.min_eq_left (by omega)
          rw [he]
          exact Nat.min_le_left _ _
        · have he : ch.count - (pos + c) = 0 := by omega
          rw [he]
          simp
      rw [hstep, List.map_cons, List.flatten_cons, hg, chunkBuf_eq_range_map,
        ih (pos + c) _ (by omega) hnext]
      by_cases hcc : ch.count - pos ≤ c
      · have h1 : min c (ch.count - pos) = ch.count - pos := Nat.min_eq_right hcc
        have h2 : ch.count - (pos + c) = 0 := by omega
        rw [h1, h2]
        simp
      · have h1 : min c (ch.count - pos) = c := Nat.min_eq_left (by omega)
        have h2 : ch.count - (pos + c) = ch.count - pos - c := by omega
        rw [h1, h2, ← List.map_append, List.range'_append_1]
        have h3 : ch.count - pos - c + c = ch.count - pos := by omega
        rw [h3]
    · have hstep : seriesGenAux ch j c (n + 1) pos tlen = [] := by
        simp [seriesGenAux, hp]
      have h0 : ch.count - pos = 0 := by omega
      rw [hstep, h0]
      simp

/-- Every chunk the generator loop produces (from a nonempty time buffer, on
any channel) holds between 1 and `c` samples, with as many values as
timestamps. -/
theorem seriesGenAux_mem_len (ch : ChannelData) (j c : Nat) (hc : 0 < c) :
    ∀ fuel pos tlen, 0 < tlen → ∀ tv ∈ seriesGenAux ch j c fuel pos tlen,
      1 ≤ tv.1.length ∧ tv.1.length ≤ c ∧ tv.2.length = tv.1.length := by
  intro fuel
  induction fuel with
  | zero =>
    intro pos tlen ht tv htv
    simp [seriesGenAux] at htv
  | succ n ih =>
    intro pos tlen ht tv htv
    by_cases hp : pos < ch.count
    · have hstep : seriesGenAux ch j c (n + 1) pos tlen
          = (chunkBuf ch.time pos (min (min c (ch.count - pos)) tlen),
             chunkBuf (fun i => ch.data i j) pos (min (min c (ch.count - pos)) tlen))
              :: seriesGenAux ch j c n (pos + c)
                  (npUniqueVals
                    (chunkBuf ch.time pos (min (min c (ch.count - pos)) tlen))).length := by
        simp only [seriesGenAux, if_pos hp]
      rw [hstep] at htv
      have hwpos : 0 < min (min c (ch.count - pos)) tlen :=
        Nat.le_min.mpr ⟨Nat.le_min.mpr ⟨hc, by omega⟩, ht⟩
      rcases List.mem_cons.mp htv with hh | hh
      · subst hh
        simp only [chunkBuf, List.length_map, List.length_range]
        exact ⟨hwpos, le_trans (Nat.min_le_left _ _) (Nat.min_le_left _ _), trivial⟩
      · refine ih (pos + c) _ ?_ tv hh
        refine npUniqueVals_length_pos _ ?_
        intro hnil
        have hlen0 := congrArg List.length hnil
        simp only [chunkBuf, List.length_map, List.length_range, List.length_nil] at hlen0
        omega
    · have hstep : seriesGenAux ch j c (n + 1) pos tlen = [] := by
        simp [seriesGenAux, hp]
      rw [hstep] at htv
      cases htv

/-- Flattening a list of singletons is the list of their elements. -/
theorem flatten_map_singleton {α β : Type} (l : List α) (f : α → β) :
    (l.map (fun a => [f a])).flatten = l.map f := by
  induction l with
  | nil => rfl
  | cons a t ih => simp [ih]

/-- C1 (amended): for every channel whose timestamps are pairwise distinct
and every `chunk_size` in `[1, sample_count]`, `series_generator` yields a
finite sequence of consecutive chunks of at most `chunk_size` samples (each
nonempty, values and timestamps in step) covering `[0, sample_count)` — the
final chunk possibly shorter — and the concatenation of the chunks' raw
values (ignoring the per-chunk de-duplication) equals the selected
`array_index` column of the sample matrix returned by one bulk `scaled()`
call on the same channel; for a scalar channel (`array_size = 1`) that column
is exactly the `scaled()` value array.  (When a non-final chunk holds a
duplicated timestamp the loop's rebinding of the time buffer to the
`np.unique` output shortens the later fetches and samples are lost — see the
counterexample — hence the duplicate-free restriction.) -/
theorem C1_series_generator_chunks (ch : ChannelData) (c j : Nat)
    (hc1 : 1 ≤ c) (hc2 : c ≤ ch.count) (hj : j < ch.arraySize)
    (hinj : ∀ i1 i2, i1 < ch.count → i2 < ch.count → ch.time i1 = ch.time i2 → i1 = i2) :
    DWChannel.scaled ch j = .ok (scaledTimes ch, scaledData ch) ∧
    (∀ tv ∈ seriesGenerator ch c j,
       1 ≤ tv.1.length ∧ tv.1.length ≤ c ∧ tv.2.length = tv.1.length) ∧
    ((seriesGenerator ch c j).map Prod.fst).flatten = scaledTimes ch ∧
    ((seriesGenerator ch c j).map Prod.snd).flatten = channelColumn ch j ∧
    (ch.arraySize = 1 →
       ((seriesGenerator ch c j).map Prod.snd).flatten = scaledData ch) := by
  have hmin : min c ch.count = c := Nat.min_eq_left hc2
  have hr0 : ch.count - 0 = ch.count := by omega
  have hfuel : ch.count - 0 ≤ ch.count := by omega
  have hbuf0 : min c (ch.count - 0) ≤ c := by
    rw [hr0, hmin]
  have hfst := seriesGenAux_flatten ch j c (by omega) hinj ch.time Prod.fst
    (fun pos size => rfl) ch.count 0 c hfuel hbuf0
  have hsnd := seriesGenAux_flatten ch j c (by omega) hinj (fun i => ch.data i j) Prod.snd
    (fun pos size => rfl) ch.count 0 c hfuel hbuf0
  have hgen : seriesGenerator ch c j = seriesGenAux ch j c ch.count 0 c := by
    unfold seriesGenerator
    rw [hmin]
  have hfst' : ((seriesGenerator ch c j).map Prod.fst).flatten = scaledTimes ch := by
    rw [hgen, hfst, hr0, ← List.range_eq_range']
    rfl
  have hsnd' : ((seriesGenerator ch c j).map Prod.snd).flatten = channelColumn ch j := by
    rw [hgen, hsnd, hr0, ← List.range_eq_range']
    rfl
  refine ⟨?_, ?_, hfst', hsnd', ?_⟩
  · unfold DWChannel.scaled
    rw [if_pos hj]
  · intro tv htv
    rw [hgen] at htv
    exact seriesGenAux_mem_len ch j c (by omega) ch.count 0 c (by omega) tv htv
  · intro h1
    have hj0 : j = 0 := by omega
    rw [hsnd', hj0]
    unfold scaledData channelColumn
    rw [h1]
    have hrow : (fun i => (List.range 1).map (ch.data i)) = fun i => [ch.data i 0] := by
      funext i
      rfl
    rw [hrow, flatten_map_singleton]

/-- C1 counterexample, two independent failures of the claim as stated:
(a) on an array channel (`array_size = 2`, one sample, row `[10, 20]`),
`scaled()` returns the full two-column value array `[10, 20]` while the
chunked reader (chunk_size 1, in `[1, sample_count]`) concatenates to `[10]`;
(b) on the scalar channel `chExDup` (times `[5, 5, 7, 8]`, values
`[0, 1, 2, 3]`, chunk_size 2): after the first chunk the loop rebinds the
time buffer to that chunk's `np.unique` output, of length 1, so the second
fetch's visible window shrinks to one sample and the final sample never
appears — the concatenation `[0, 1, 2]` neither covers `[0, sample_count)`
nor equals the bulk `scaled()` values `[0, 1, 2, 3]`. -/
theorem C1_counterexample :
    DWChannel.scaled chEx2 0 = .ok ([0], [10, 20]) ∧
    ((seriesGenerator chEx2 1 0).map Prod.snd).flatten = [10] ∧
    ((seriesGenerator chEx2 1 0).map Prod.snd).flatten ≠ scaledData chEx2 ∧
    DWChannel.scaled chExDup 0 = .ok ([5, 5, 7, 8], [0, 1, 2, 3]) ∧
    ((seriesGenerator chExDup 2 0).map Prod.fst).flatten = [5, 5, 7] ∧
    ((seriesGenerator chExDup 2 0).map Prod.snd).flatten = [0, 1, 2] ∧
    ((seriesGenerator chExDup 2 0).map Prod.snd).flatten ≠ scaledData chExDup := by
  refine ⟨rfl, by decide, by decide, rfl, by decide, by decide, by decide⟩

/-- C1 witness: a scalar 3-sample channel with distinct timestamps read in
chunks of 2. -/
theorem C1_series_generator_chunks_witness :
    (1 ≤ 2 ∧ 2 ≤ chEx1.count ∧ 0 < chEx1.arraySize ∧
     (∀ i1 i2, i1 < chEx1.count → i2 < chEx1.count →
        chEx1.time i1 = chEx1.time i2 → i1 = i2)) ∧
    ((seriesGenerator chEx1 2 0).map Prod.fst).flatten = scaledTimes chEx1 ∧
    ((seriesGenerator chEx1 2 0).map Prod.snd).flatten = scaledData chEx1 :=
  have hinj : ∀ i1 i2, i1 < chEx1.count → i2 < chEx1.count →
      chEx1.time i1 = chEx1.time i2 → i1 = i2 :=
    fun i1 i2 _ _ he => Int.ofNat.inj he
  ⟨⟨by decide, by decide, by decide, hinj⟩,
   (C1_series_generator_chunks chEx1 2 0 (by decide) (by decide) (by decide) hinj).2.2.1,
   (C1_series_generator_chunks chEx1 2 0 (by decide) (by decide) (by decide) hinj).2.2.2.2
     (by decide)⟩
